import Mathlib

/-!
# Verification of the latch client-side pending-operation state machine

Shallow embedding of the GUI orchestration core of the `latch` password
manager client (`src/gui/temp_message.rs`, `src/gui/state/manager.rs`,
`src/schema.rs`), together with theorems settling the specification's
claims about it.

Modelling conventions:
* Rust `HashMap<String, String>` / `BTreeMap<String, String>` become
  association lists (`FieldMap`); only lookup/insert/iteration are used by
  the embedded code, and no claim depends on iteration order beyond
  "all values" style properties.
* A Rust function that can `panic!` (an `unwrap` on a failed lookup or
  conversion, or a `todo!`) is embedded as an `Option`-returning function,
  `none` meaning "the source panics here".
* Types that are part of the repository but outside the excerpted files
  (`StoreChoice`, `Store`, `Info`, the message enums, the per-step GUI
  states) are modelled from the spec and from how the excerpted code uses
  them; each such definition carries a doc comment saying so.
-/

/-- Association list standing in for `HashMap<String, String>` /
`BTreeMap<String, String>` field maps. -/
abbrev FieldMap := List (String × String)

/-- Map lookup (`map.get(key)`). -/
def FieldMap.lookupKey : FieldMap → String → Option String
  | [], _ => none
  | (k', v') :: rest, k => if k' = k then some v' else FieldMap.lookupKey rest k

/-- Map insert (`map.insert(key, value)`): replaces the value at an existing
key, otherwise appends the binding. -/
def FieldMap.insertKey : FieldMap → String → String → FieldMap
  | [], k, v => [(k, v)]
  | (k', v') :: rest, k, v =>
      if k' = k then (k, v) :: rest else (k', v') :: FieldMap.insertKey rest k v

/-- From `src/schema.rs`: `Schema` — a vault's directory entry, mapping each
entry key to the (display form of the) style of value stored there. -/
structure Schema where
  data : FieldMap
deriving DecidableEq, Repr

/-- Embeds `Schema::get` (`src/schema.rs` lines 21-23). -/
def Schema.get (s : Schema) (key : String) : Option String :=
  s.data.lookupKey key

/-- Embeds `Schema::is_empty` (`src/schema.rs` lines 25-27). -/
def Schema.is_empty (s : Schema) : Bool :=
  s.data.isEmpty

/-- Embeds `schema.data.contains_key(k)` as used in `manager.rs`. -/
def Schema.contains_key (s : Schema) (key : String) : Bool :=
  (s.data.lookupKey key).isSome

/-- Modelled from the spec (§3, §9; `src/store.rs` is not among the
excerpted files): the field-type schema choice for an entry. The GUI only
uses `StoreChoice::default()`, `convert`, `convert_default` and the
inverse `Store::split`, so two representative variants suffice. -/
inductive StoreChoice where
  | password
  | usernamePassword
deriving DecidableEq, Repr

/-- Modelled from the spec: the store's typed representation of one
entry's value (the validated record produced by schema conversion). -/
inductive Store where
  | password (p : String)
  | usernamePassword (u : String) (p : String)
deriving DecidableEq, Repr

/-- Embeds `StoreChoice::default()`. -/
def StoreChoice.default : StoreChoice := .password

/-- Modelled from the spec (§4.1, §9): conversion of the raw
field-name→string mapping into the store's typed representation for the
chosen field-type schema; fails (returns `none`) when the mapping is
malformed for that schema, i.e. lacks a required field. -/
def StoreChoice.convert : StoreChoice → FieldMap → Option Store
  | .password, m => (m.lookupKey "password").map Store.password
  | .usernamePassword, m =>
      match m.lookupKey "username", m.lookupKey "password" with
      | some u, some p => some (Store.usernamePassword u p)
      | _, _ => none

/-- Modelled from the spec: the default (all-empty) typed record for a
choice, whose `as_hash` seeds the editable field map of a form. -/
def StoreChoice.convert_default : StoreChoice → Store
  | .password => .password ""
  | .usernamePassword => .usernamePassword "" ""

/-- Modelled from the spec: `Store::as_hash`, the raw field map of a typed
record. -/
def Store.as_hash : Store → FieldMap
  | .password p => [("password", p)]
  | .usernamePassword u p => [("username", u), ("password", p)]

/-- Modelled from the spec: `Store::split`, decomposing a typed record into
its schema choice and raw field map (used when a read response refills an
open editor). -/
def Store.split : Store → StoreChoice × FieldMap
  | .password p => (.password, [("password", p)])
  | .usernamePassword u p => (.usernamePassword, [("username", u), ("password", p)])

/-- Modelled from usage in `manager.rs` (`src/message.rs` is not among the
excerpted files): the per-vault wire message carried by an outbound
request. -/
inductive Message where
  | Delete (password : String) (key : String)
  | Get (password : String) (key : String)
  | Update (password : String) (key : String) (value : Store)
deriving DecidableEq, Repr

/-- Modelled from usage in `manager.rs` (`src/manager_message.rs` is not
among the excerpted files): an outbound request to the remote store. -/
inductive ManagerMessage where
  | VaultMessage (vault : String) (msg : Message)
  | Info
  | DeleteEmptyVault (vault : String)
  | DeleteVaultReq (vault : String) (password : String)
  | NewVault (vault : String)
deriving DecidableEq, Repr

/-- From `src/gui/temp_message.rs` lines 13-21: the Pending Operation.
The excerpted `temp_message.rs` shows the five variants `Empty`, `Delete`,
`Get`, `New`, `Update`; `manager.rs` additionally constructs and matches
`DeleteVault` and `DeleteEmptyVault`, so the enum in the repository has
seven variants (as §3 of the spec records); the two extra variants are
included here and their operation arms are modelled from the spec. -/
inductive TempMessage where
  | Empty
  | Delete (vault : String) (key : String)
  | Get (vault : String) (key : String)
  | New (vault : String) (key : String) (choice : StoreChoice) (fields : FieldMap)
  | Update (vault : String) (key : String) (choice : StoreChoice) (fields : FieldMap)
  | DeleteVault (vault : String)
  | DeleteEmptyVault (vault : String)
deriving DecidableEq, Repr

/-- Embeds `TempMessage::needs_password` (`temp_message.rs` lines 24-32 for the
five excerpted variants; the `DeleteVault`/`DeleteEmptyVault` arms are
modelled from the spec §3/§4.1: every variant except `Empty` and
`DeleteEmptyVault` requires authentication). -/
def TempMessage.needs_password : TempMessage → Bool
  | .Empty => false
  | .Delete _ _ => true
  | .Get _ _ => true
  | .New _ _ _ _ => true
  | .Update _ _ _ _ => true
  | .DeleteVault _ => true
  | .DeleteEmptyVault _ => false

/-- The `filled` loop of `TempMessage::complete` (`temp_message.rs`
lines 38-44): scans the field map, breaking at the first empty value. -/
def TempMessage.allFilled : FieldMap → Bool
  | [] => true
  | (_, value) :: rest =>
      if value.isEmpty then false else TempMessage.allFilled rest

/-- Embeds `TempMessage::complete` (`temp_message.rs` lines 34-60 for the five
excerpted variants; the `DeleteVault`/`DeleteEmptyVault` arms are modelled
from the spec §3: completeness is trivially satisfied for them). -/
def TempMessage.complete : TempMessage → Bool
  | .Empty => true
  | .New _ name _ fields => !name.isEmpty && TempMessage.allFilled fields
  | .Update _ name _ fields => !name.isEmpty && TempMessage.allFilled fields
  | .Get _ name => !name.isEmpty
  | .Delete _ name => !name.isEmpty
  | .DeleteVault _ => true
  | .DeleteEmptyVault _ => true

/-- Embeds `TempMessage::with_password` (`temp_message.rs` lines 62-81 for the
five excerpted variants): finalizes the Pending Operation with the
supplied secret into the outbound request. The `New`/`Update` arms call
`choice.convert(value).unwrap()` in the source: a failed conversion
panics, embedded as `none`. The `DeleteVault`/`DeleteEmptyVault` arms are
modelled from the spec (§3, §4.2): a delete-vault request carrying the
secret, resp. the passwordless empty-vault delete request. -/
def TempMessage.with_password : TempMessage → String → Option ManagerMessage
  | .Delete vault key, password =>
      some (.VaultMessage vault (.Delete password key))
  | .Get vault key, password =>
      some (.VaultMessage vault (.Get password key))
  | .New vault key choice value, password =>
      (choice.convert value).map fun st => .VaultMessage vault (.Update password key st)
  | .Update vault key choice value, password =>
      (choice.convert value).map fun st => .VaultMessage vault (.Update password key st)
  | .Empty, _ => some .Info
  | .DeleteVault vault, password => some (.DeleteVaultReq vault password)
  | .DeleteEmptyVault vault, _ => some (.DeleteEmptyVault vault)

/-- The file `src/info.rs` is not among the excerpted files; modelled from the spec
(§3 Directory Cache) and from usage in `manager.rs`: the full directory
snapshot, mapping vault names to their `Schema`. -/
structure Info where
  data : List (String × Schema)
deriving DecidableEq, Repr

/-- Lookup helper for `Info.get`. -/
def Info.getIn : List (String × Schema) → String → Option Schema
  | [], _ => none
  | (name, schema) :: rest, v =>
      if name = v then some schema else Info.getIn rest v

/-- Embeds `info.get(vault)` as used in `manager.rs`. -/
def Info.get (i : Info) (v : String) : Option Schema :=
  Info.getIn i.data v

/-- Embeds `info.data.contains_key(v)` as used in `manager.rs`. -/
def Info.contains_key (i : Info) (v : String) : Bool :=
  (i.get v).isSome

/-- The file `src/reads.rs` is not among the excerpted files; modelled from usage in
`manager.rs` (`update_entry`): the payload of a read response, a list of
(key, typed value) pairs. -/
abbrev Reads := List (String × Store)

/-- The file `src/output.rs` is not among the excerpted files; modelled from usage
in `manager.rs`: a response pushed by the connection layer. The source
handles `Info`, `Read` and `Nothing` and hits `todo!()` (a panic) on any
other variant, modelled by the catch-all `Other`. -/
inductive Output where
  | Info (i : Info)
  | Read (r : Reads)
  | Nothing
  | Other
deriving DecidableEq, Repr

/-- The file `src/gui/connection.rs` is not among the excerpted files; modelled from
usage in `manager.rs`: a connection-layer event. The `Connected` payload
(the connection handle) is abstracted away — the embedding keeps only the
connectedness flag. -/
inductive ConnEvent where
  | Connected
  | Disconnected
  | ReceiveOutput (o : Output)
  | ReceiveError
deriving DecidableEq, Repr

/-- The file `src/gui/state/password.rs` is not among the excerpted files; modelled
from the spec (§3 Workflow Stack): the in-progress password text, the
optional confirmation text, and whether confirmation is required.
`PasswordState::new(b)` sets the requirement flag; `default()` is
`new(false)`. -/
structure PasswordState where
  password : String
  confirm : Option String
  needsConfirm : Bool
deriving DecidableEq, Repr

/-- Embeds `PasswordState::new`: modelled from the spec. -/
def PasswordState.new (needsConfirm : Bool) : PasswordState :=
  { password := "", confirm := none, needsConfirm := needsConfirm }

/-- Embeds `PasswordState::default()`: modelled from the spec. -/
def PasswordState.mkDefault : PasswordState :=
  PasswordState.new false

/-- Embeds `PasswordState::valid`: modelled from the spec (§4.2 step 3): the
password is non-empty and, if confirmation is required, equals the
confirmation text. -/
def PasswordState.valid (p : PasswordState) : Bool :=
  !p.password.isEmpty && (!p.needsConfirm || p.confirm == some p.password)

/-- The file `src/gui/state/entry.rs` is not among the excerpted files; modelled
from usage in `manager.rs`: the existing-entry view/edit layer.
`from_entry(vault, key, style)` opens the (not yet filled) view for an
entry whose directory style string is `style`. -/
structure EntryState where
  vault : String
  key : String
  style : String
  choice : StoreChoice
  value : FieldMap
  hidden : Bool
deriving DecidableEq, Repr

/-- Embeds `EntryState::from_entry`: modelled from usage in `manager.rs`. -/
def EntryState.from_entry (vault key style : String) : EntryState :=
  { vault := vault, key := key, style := style,
    choice := StoreChoice.default, value := [], hidden := true }

/-- Embeds `entry.update(value)` (used by `update_entry` in `manager.rs`):
modelled as refilling the editor from the typed value. -/
def EntryState.updateVal (e : EntryState) (v : Store) : EntryState :=
  let (c, m) := v.split
  { e with choice := c, value := m }

/-- Embeds `entry_state.get_password()` as used by the clipboard-copy handler:
modelled as the "password" field of the open editor, if any. -/
def EntryState.get_password (e : EntryState) : Option String :=
  e.value.lookupKey "password"

/-- The file `src/gui/state/new_entry.rs` is not among the excerpted files; modelled
from usage in `manager.rs`: the new-entry form layer. -/
structure NewEntryState where
  vault : String
  name : String
  choice : StoreChoice
  value : FieldMap
deriving DecidableEq, Repr

/-- Embeds `NewEntryState::for_vault`: modelled from usage in `manager.rs`
(mirrors the `TempMessage::New` initialisation right next to it). -/
def NewEntryState.for_vault (vault : String) : NewEntryState :=
  { vault := vault, name := "", choice := StoreChoice.default,
    value := StoreChoice.default.convert_default.as_hash }

/-- The file `src/gui/state/prompt.rs` is not among the excerpted files; modelled
from usage in `manager.rs`: the vault-name prompt layer. -/
structure PromptState where
  vault : String
deriving DecidableEq, Repr

/-- Embeds `PromptState::default()`. -/
def PromptState.mkDefault : PromptState := { vault := "" }

/-- From `manager.rs` lines 254-261: one layer of the Workflow Stack. -/
inductive InternalState where
  | Password (st : PasswordState)
  | Entry (st : EntryState)
  | New (st : NewEntryState)
  | Prompt (st : PromptState)
deriving DecidableEq, Repr

/-- Top of the Workflow Stack (`self.internal_state.last()`); the stack is
a `Vec` pushed at the back, so the top is the last element. -/
def stackTop : List InternalState → Option InternalState
  | [] => none
  | [x] => some x
  | _ :: xs => stackTop xs

/-- Pop the top layer (`self.internal_state.pop()`). -/
def stackPop : List InternalState → List InternalState
  | [] => []
  | [_] => []
  | x :: xs => x :: stackPop xs

/-- Mutate the top layer in place (`self.active_state_mut()` followed by a
field assignment); no-op on an empty stack. -/
def stackModifyTop (f : InternalState → InternalState) :
    List InternalState → List InternalState
  | [] => []
  | [x] => [f x]
  | x :: xs => x :: stackModifyTop f xs

/-- The file `src/gui/vault.rs`'s `EntryMessage` is not among the excerpted files;
modelled from usage in `manager.rs`. -/
inductive EntryMessage where
  | Delete
  | View
deriving DecidableEq, Repr

/-- The file `src/gui/vault.rs`'s `VaultMessage` is not among the excerpted files;
modelled from usage in `manager.rs`. -/
inductive VaultMessage where
  | Entry (em : EntryMessage) (key : String)
  | NewEntry
  | Delete
  | Toggle (name : String)
deriving DecidableEq, Repr

/-- The file `src/gui/gui_message.rs` is not among the excerpted files; modelled
from usage in `manager.rs`: the event alphabet of the Orchestrator.
`GeneratePassword` carries the randomly generated password as an explicit
oracle argument (the source draws it from the config's password spec);
`ChangeTheme` only touches the excluded config/rendering state and is
omitted. -/
inductive GUIMessage where
  | Event (e : ConnEvent)
  | VaultMessage (m : VaultMessage) (vault : String)
  | PasswordChanged (p : String)
  | PasswordConfirmChanged (p : String)
  | PromptChanged (p : String)
  | ChangeName (n : String)
  | SelectStyle (choice : StoreChoice)
  | UpdateField (k : String) (v : String)
  | GeneratePassword (p : String)
  | Submit
  | Exit
  | ShowPassword
  | HidePassword
  | CopyPassword
  | CopyClipboard (data : Option String)
  | ClearClipboard
  | NewVault
deriving DecidableEq, Repr

/-- From `manager.rs` lines 41-49: the Orchestrator state. The excluded
rendering/config fields (`config`) are dropped; `vaults` keeps only the
per-vault `expanded` flag, the sole piece of `Vault` state the manager
logic reads or writes. `connected` abstracts `ConnectionState`. -/
structure ManagerState where
  info : Info
  vaults : List (String × Bool)
  internal_state : List InternalState
  temp_message : TempMessage
  stored_clipboard : Option String
  connected : Bool
deriving DecidableEq, Repr

/-- Embeds `ManagerState::default()` (`manager.rs` lines 51-64), config aside. -/
def ManagerState.init : ManagerState :=
  { info := ⟨[]⟩, vaults := [], internal_state := [],
    temp_message := .Empty, stored_clipboard := none, connected := false }

/-- Embeds `ManagerState::get_password` (`manager.rs` lines 72-79): the first
(bottom-most) password layer's text, if any. -/
def ManagerState.get_password (s : ManagerState) : Option String :=
  go s.internal_state
where
  go : List InternalState → Option String
    | [] => none
    | .Password p :: _ => some p.password
    | _ :: rest => go rest

/-- Embeds `send_message` (`manager.rs` lines 186-195): requests reach the
connection layer only while connected; when disconnected, dispatch is a
no-op. The embedding returns the list of requests actually handed to the
connection. -/
def ManagerState.sendFilter (s : ManagerState) (msgs : List ManagerMessage) :
    List ManagerMessage :=
  if s.connected then msgs else []

/-- Embeds `ManagerState::update(info)` (`manager.rs` lines 149-162): rebuild the
Directory Cache wholesale from a snapshot, carrying forward only the
`expanded` flag of vaults present in both old and new cache. -/
def ManagerState.updateInfo (s : ManagerState) (info : Info) : ManagerState :=
  { s with
    info := info,
    vaults := info.data.map fun nv =>
      (nv.1, match s.vaults.lookup nv.1 with
             | some e => e
             | none => false) }

/-- Embeds `ManagerState::update_entry` (`manager.rs` lines 163-185): a read
response refills the open entry editor (when the active layer is an entry
view with a matching key) and the pending `Update` operation's
choice/field map (when its key matches). -/
def ManagerState.update_entry (s : ManagerState) (data : Reads) : ManagerState :=
  let st :=
    { s with internal_state :=
        match stackTop s.internal_state with
        | some (.Entry _) =>
            stackModifyTop
              (fun l => match l with
                | .Entry e' => .Entry (data.foldl
                    (fun acc (kv : String × Store) =>
                      if kv.1 = acc.key then acc.updateVal kv.2 else acc) e')
                | other => other)
              s.internal_state
        | _ => s.internal_state }
  match st.temp_message with
  | .Update v uk choice uval =>
      let cv := data.foldl
        (fun acc (kv : String × Store) => if uk = kv.1 then kv.2.split else acc)
        (choice, uval)
      { st with temp_message := .Update v uk cv.1 cv.2 }
  | _ => st

/-- Embeds `ManagerState::handle_password_submit` (`manager.rs` lines 80-138).
Returns the updated state and the message list handed to `send_message`;
`none` embeds a panic (the `unwrap`ed Directory Cache lookups in the `Get`
arm, or a failed `convert` inside `with_password`). -/
def ManagerState.handle_password_submit (s : ManagerState) (password : String) :
    Option (ManagerState × List ManagerMessage) :=
  match s.temp_message with
  | .Get vault key => do
      let message ← s.temp_message.with_password password
      let schema ← s.info.get vault
      let style ← schema.get key
      some ({ s with
              internal_state :=
                s.internal_state ++ [.Entry (EntryState.from_entry vault key style)],
              temp_message := .Update vault key StoreChoice.default
                StoreChoice.default.convert_default.as_hash },
            [message])
  | .Delete _ _ => do
      let message ← s.temp_message.with_password password
      some ({ s with internal_state := [], temp_message := .Empty },
            [message, .Info])
  | .New _ _ _ _ => do
      let message ← s.temp_message.with_password password
      some ({ s with internal_state := [], temp_message := .Empty },
            [message, .Info])
  | .Update _ _ _ _ => do
      let message ← s.temp_message.with_password password
      some ({ s with internal_state := [], temp_message := .Empty },
            [message, .Info])
  | .Empty =>
      some ({ s with internal_state := [], temp_message := .Empty }, [])
  | .DeleteVault _ => do
      let message ← s.temp_message.with_password password
      some ({ s with internal_state := [], temp_message := .Empty },
            [message, .Info])
  | .DeleteEmptyVault _ => do
      let message ← s.temp_message.with_password password
      some ({ s with internal_state := [], temp_message := .Empty },
            [message, .Info])

/-- Embeds `Application::update` for `ManagerState` (`manager.rs` lines 331-629):
the Orchestrator's single event-dispatch function. Returns the updated
state together with the outbound requests actually handed to the
connection layer this step (after the `send_message` connectivity filter);
`none` embeds a panic (`unwrap`/`todo!`). Clipboard side effects
(read/write/delayed clear commands of the `CopyPassword` and
`ClearClipboard` arms) are modelled separately by `ClipWorld` below; here
those arms keep only their state updates. -/
def ManagerState.update (s : ManagerState) (m : GUIMessage) :
    Option (ManagerState × List ManagerMessage) :=
  match m with
  | .Event e =>
      match e with
      | .Connected =>
          let st := { s with connected := true }
          some (st, st.sendFilter [.Info])
      | .Disconnected => some ({ s with connected := false }, [])
      | .ReceiveOutput o =>
          match o with
          | .Info info => some (s.updateInfo info, [])
          | .Read value => some (s.update_entry value, [])
          | .Nothing => some (s, [])
          | .Other => none
      | .ReceiveError =>
          some ({ s with internal_state := [], temp_message := .Empty }, [])
  | .VaultMessage message vault =>
      match message with
      | .Entry em key =>
          match em with
          | .Delete =>
              let st := { s with temp_message := .Delete vault key }
              some (if st.temp_message.needs_password then
                      { st with internal_state :=
                          st.internal_state ++ [.Password PasswordState.mkDefault] }
                    else st, [])
          | .View =>
              let st := { s with temp_message := .Get vault key }
              some (if st.temp_message.needs_password then
                      { st with internal_state :=
                          st.internal_state ++ [.Password PasswordState.mkDefault] }
                    else st, [])
      | .NewEntry =>
          some ({ s with
                  temp_message := .New vault "" StoreChoice.default
                    StoreChoice.default.convert_default.as_hash,
                  internal_state :=
                    s.internal_state ++ [.New (NewEntryState.for_vault vault)] }, [])
      | .Delete => do
          let schema ← s.info.get vault
          let (st, sent) :=
            if schema.is_empty then
              (s, s.sendFilter [.DeleteEmptyVault vault, .Info])
            else
              ({ s with temp_message := .DeleteVault vault }, [])
          some (if st.temp_message.needs_password then
                  { st with internal_state :=
                      st.internal_state ++ [.Password PasswordState.mkDefault] }
                else st, sent)
      | .Toggle name =>
          some ({ s with vaults := s.vaults.map fun nv =>
                    if nv.1 = name then (nv.1, !nv.2) else nv }, [])
  | .PasswordChanged p =>
      let f : InternalState → InternalState := fun l =>
        match l with
        | .Password ps => .Password { ps with password := p }
        | other => other
      some ({ s with internal_state := stackModifyTop f s.internal_state }, [])
  | .PasswordConfirmChanged p =>
      let f : InternalState → InternalState := fun l =>
        match l with
        | .Password ps => .Password { ps with confirm := some p }
        | other => other
      some ({ s with internal_state := stackModifyTop f s.internal_state }, [])
  | .PromptChanged p =>
      let f : InternalState → InternalState := fun l =>
        match l with
        | .Prompt ps => .Prompt { ps with vault := p }
        | other => other
      some ({ s with internal_state := stackModifyTop f s.internal_state }, [])
  | .ChangeName n =>
      let f : InternalState → InternalState := fun l =>
        match l with
        | .New ns => .New { ns with name := n }
        | other => other
      let st := { s with internal_state := stackModifyTop f s.internal_state }
      some (match st.temp_message with
            | .New v _ c fields => { st with temp_message := .New v n c fields }
            | _ => st, [])
  | .SelectStyle choice =>
      let f : InternalState → InternalState := fun l =>
        match l with
        | .New ns =>
            .New { ns with choice := choice, value := choice.convert_default.as_hash }
        | other => other
      let st := { s with internal_state := stackModifyTop f s.internal_state }
      some (match st.temp_message with
            | .New v k _ _ =>
                { st with temp_message := .New v k choice choice.convert_default.as_hash }
            | _ => st, [])
  | .UpdateField k v =>
      let f : InternalState → InternalState := fun l =>
        match l with
        | .New ns => .New { ns with value := ns.value.insertKey k v }
        | .Entry es => .Entry { es with value := es.value.insertKey k v }
        | other => other
      let st := { s with internal_state := stackModifyTop f s.internal_state }
      some (match st.temp_message with
            | .New a b c fields =>
                { st with temp_message := .New a b c (fields.insertKey k v) }
            | .Update a b c fields =>
                { st with temp_message := .Update a b c (fields.insertKey k v) }
            | _ => st, [])
  | .GeneratePassword p =>
      let f : InternalState → InternalState := fun l =>
        match l with
        | .New ns => .New { ns with value := ns.value.insertKey "password" p }
        | .Entry es => .Entry { es with value := es.value.insertKey "password" p }
        | other => other
      let st := { s with internal_state := stackModifyTop f s.internal_state }
      some (match st.temp_message with
            | .New a b c fields =>
                { st with temp_message := .New a b c (fields.insertKey "password" p) }
            | .Update a b c fields =>
                { st with temp_message := .Update a b c (fields.insertKey "password" p) }
            | _ => st, [])
  | .Submit =>
      match stackTop s.internal_state with
      | some (.Password password_state) =>
          if password_state.valid then
            match s.handle_password_submit password_state.password with
            | some (st, msgs) => some (st, st.sendFilter msgs)
            | none => none
          else some (s, [])
      | some (.New new_state) =>
          match s.info.get new_state.vault with
          | some schema =>
              if s.temp_message.complete then
                if schema.is_empty then
                  some ({ s with internal_state :=
                            s.internal_state ++ [.Password (PasswordState.new true)] }, [])
                else if !schema.contains_key new_state.name then
                  some ({ s with internal_state :=
                            s.internal_state ++ [.Password PasswordState.mkDefault] }, [])
                else some (s, [])
              else some (s, [])
          | none => some (s, [])
      | some (.Entry entry_state) =>
          match s.info.get entry_state.vault with
          | some schema =>
              if schema.contains_key entry_state.key && s.temp_message.complete then
                match s.get_password with
                | some password => do
                    let message ← s.temp_message.with_password password
                    some ({ s with temp_message := .Empty, internal_state := [] },
                          s.sendFilter [message])
                | none =>
                    some ({ s with internal_state :=
                              s.internal_state ++ [.Password PasswordState.mkDefault] }, [])
              else some (s, [])
          | none => some (s, [])
      | some (.Prompt prompt_state) =>
          if !s.info.contains_key prompt_state.vault && !prompt_state.vault.isEmpty then
            some ({ s with internal_state := stackPop s.internal_state },
                  s.sendFilter [.NewVault prompt_state.vault, .Info])
          else some (s, [])
      | none => some (s, [])
  | .Exit =>
      match stackTop s.internal_state with
      | some (.Password _) =>
          let st :=
            match s.temp_message with
            | .Delete _ _ => { s with temp_message := .Empty }
            | .Get _ _ => { s with temp_message := .Empty }
            | .DeleteVault _ => { s with temp_message := .Empty }
            | .DeleteEmptyVault _ => { s with temp_message := .Empty }
            | .Update _ _ _ _ => s
            | .New _ _ _ _ => s
            | .Empty => s
          some ({ st with internal_state := stackPop st.internal_state }, [])
      | some (.Entry _) =>
          some ({ s with temp_message := .Empty, internal_state := [] }, [])
      | some (.New _) =>
          some ({ s with temp_message := .Empty, internal_state := [] }, [])
      | some (.Prompt _) =>
          some ({ s with internal_state := stackPop s.internal_state }, [])
      | none => some (s, [])
  | .ShowPassword =>
      let f : InternalState → InternalState := fun l =>
        match l with
        | .Entry es => .Entry { es with hidden := false }
        | other => other
      some ({ s with internal_state := stackModifyTop f s.internal_state }, [])
  | .HidePassword =>
      let f : InternalState → InternalState := fun l =>
        match l with
        | .Entry es => .Entry { es with hidden := true }
        | other => other
      some ({ s with internal_state := stackModifyTop f s.internal_state }, [])
  | .CopyPassword => some (s, [])
  | .CopyClipboard data => some ({ s with stored_clipboard := data }, [])
  | .ClearClipboard => some ({ s with stored_clipboard := none }, [])
  | .NewVault =>
      some ({ s with internal_state :=
                s.internal_state ++ [.Prompt PromptState.mkDefault] }, [])

/-- A string's `isEmpty` test is false exactly for non-empty strings. -/
theorem stringIsEmptyFalse (s : String) : s.isEmpty = false ↔ s ≠ "" := by
  have h := String.isEmpty_iff s
  cases hb : s.isEmpty <;> simp_all

/-- The scan loop of `TempMessage::complete` accepts a field map exactly
when every field value in it is non-empty. -/
theorem TempMessage.allFilled_iff (m : FieldMap) :
    TempMessage.allFilled m = true ↔ ∀ p ∈ m, p.2 ≠ "" := by
  induction m with
  | nil => simp [TempMessage.allFilled]
  | cons kv rest ih =>
      obtain ⟨k, v⟩ := kv
      by_cases h : v = ""
      · subst h
        have h0 : "".isEmpty = true := rfl
        simp [TempMessage.allFilled, h0]
      · have hv : v.isEmpty = false := (stringIsEmptyFalse v).mpr h
        simp [TempMessage.allFilled, hv, ih, h]

/-- C3: `needs_password` returns true for every Pending Operation variant
except `Empty` and `DeleteEmptyVault`, and false exactly for those two. -/
theorem TempMessage.needs_password_spec (t : TempMessage) :
    t.needs_password = false ↔ (t = .Empty ∨ ∃ v, t = .DeleteEmptyVault v) := by
  cases t <;> simp [TempMessage.needs_password]

/-- C5: receiving a remote-error event always results in an empty Workflow
Stack and the Pending Operation `Empty`, regardless of prior state, with
nothing dispatched. -/
theorem ManagerState.receive_error_resets (s : ManagerState) :
    s.update (.Event .ReceiveError) =
      some ({ s with internal_state := [], temp_message := .Empty }, []) :=
  rfl

/-- C6: `complete` holds for `New`/`Update` iff the key name is non-empty
and every field value is non-empty; for `Get`/`Delete` iff the key name is
non-empty; and always for `Empty`, `DeleteVault`, `DeleteEmptyVault`. -/
theorem TempMessage.complete_spec (t : TempMessage) :
    t.complete = true ↔
      (match t with
       | .New _ name _ fields => name ≠ "" ∧ ∀ p ∈ fields, p.2 ≠ ""
       | .Update _ name _ fields => name ≠ "" ∧ ∀ p ∈ fields, p.2 ≠ ""
       | .Get _ name => name ≠ ""
       | .Delete _ name => name ≠ ""
       | .Empty => True
       | .DeleteVault _ => True
       | .DeleteEmptyVault _ => True) := by
  cases t <;>
    simp [TempMessage.complete, TempMessage.allFilled_iff, stringIsEmptyFalse,
      and_comm]

/-- C10: handling a password submit while the Pending Operation is
`Get(vault, key)` succeeds (does not hit the `unwrap` panics on the
Directory Cache lookups) exactly when the cache contains that vault and
the vault's schema contains that key; otherwise the handler panics
(`none`) instead of returning an error. -/
theorem ManagerState.get_submit_panic_iff (s : ManagerState) (pw v k : String) :
    (({ s with temp_message := .Get v k }).handle_password_submit pw).isSome ↔
      ∃ schema, s.info.get v = some schema ∧ (schema.get k).isSome := by
  rcases hi : s.info.get v with _ | schema
  · simp [ManagerState.handle_password_submit, TempMessage.with_password, hi]
  · rcases hk : schema.get k with _ | style <;>
      simp [ManagerState.handle_password_submit, TempMessage.with_password, hi, hk]

/-- Concrete Orchestrator state used to refute C1: a valid password prompt
on top of the stack while the Pending Operation is `Get("v", "k")` and the
Directory Cache knows the entry. -/
def stateC1 : ManagerState :=
  { info := ⟨[("v", ⟨[("k", "password")]⟩)]⟩,
    vaults := [("v", false)],
    internal_state := [.Password { password := "p", confirm := none, needsConfirm := false }],
    temp_message := .Get "v" "k",
    stored_clipboard := none,
    connected := true }

/-- C1 (counterexample): submitting the valid password while the Pending
Operation is `Get("v", "k")` leaves the Workflow Stack non-empty (an entry
view is pushed), leaves the Pending Operation non-`Empty` (it becomes an
`Update`), and dispatches no directory-refresh request — falsifying, at
this input, the claim that every variant clears the stack, resets the
Pending Operation, and (being non-`Empty`) appends a refresh request. -/
theorem ManagerState.get_submit_breaks_C1 :
    (stateC1.update .Submit).map
        (fun r => (r.1.internal_state.isEmpty, r.1.temp_message == .Empty,
                   r.2.contains .Info)) =
      some (false, false, false) := by
  decide

/-- C1 (amended): the per-variant behaviour of `handle_password_submit` on
a valid password. `Delete`, `DeleteVault`, `DeleteEmptyVault`, and — when
field conversion succeeds — `New` and `Update` each obtain exactly one
outbound request from `finalize(secret)` plus one follow-up
directory-refresh request, clear the Workflow Stack and reset the Pending
Operation to `Empty`. `Empty` dispatches nothing (not even the refresh)
and clears. `Get` dispatches exactly one request with **no** refresh,
pushes an entry view on top of the stack (which therefore stays
non-empty), and turns the Pending Operation into an `Update` seeded with
defaults. -/
theorem ManagerState.handle_password_submit_cases (s : ManagerState) (pw : String) :
    (({ s with temp_message := .Empty }).handle_password_submit pw =
        some ({ s with internal_state := [], temp_message := .Empty }, []))
  ∧ (∀ v k, ({ s with temp_message := .Delete v k }).handle_password_submit pw =
        some ({ s with internal_state := [], temp_message := .Empty },
              [.VaultMessage v (.Delete pw k), .Info]))
  ∧ (∀ v, ({ s with temp_message := .DeleteVault v }).handle_password_submit pw =
        some ({ s with internal_state := [], temp_message := .Empty },
              [.DeleteVaultReq v pw, .Info]))
  ∧ (∀ v, ({ s with temp_message := .DeleteEmptyVault v }).handle_password_submit pw =
        some ({ s with internal_state := [], temp_message := .Empty },
              [.DeleteEmptyVault v, .Info]))
  ∧ (∀ v k c m st, c.convert m = some st →
        ({ s with temp_message := .New v k c m }).handle_password_submit pw =
          some ({ s with internal_state := [], temp_message := .Empty },
                [.VaultMessage v (.Update pw k st), .Info]))
  ∧ (∀ v k c m st, c.convert m = some st →
        ({ s with temp_message := .Update v k c m }).handle_password_submit pw =
          some ({ s with internal_state := [], temp_message := .Empty },
                [.VaultMessage v (.Update pw k st), .Info]))
  ∧ (∀ v k schema style, s.info.get v = some schema → schema.get k = some style →
        ({ s with temp_message := .Get v k }).handle_password_submit pw =
          some ({ s with
                  internal_state :=
                    s.internal_state ++ [.Entry (EntryState.from_entry v k style)],
                  temp_message := .Update v k StoreChoice.default
                    StoreChoice.default.convert_default.as_hash },
                [.VaultMessage v (.Get pw k)])) := by
  refine ⟨?_, ?_, ?_, ?_, ?_, ?_, ?_⟩
  · simp [ManagerState.handle_password_submit]
  · intro v k
    simp [ManagerState.handle_password_submit, TempMessage.with_password]
  · intro v
    simp [ManagerState.handle_password_submit, TempMessage.with_password]
  · intro v
    simp [ManagerState.handle_password_submit, TempMessage.with_password]
  · intro v k c m st hc
    simp [ManagerState.handle_password_submit, TempMessage.with_password, hc]
  · intro v k c m st hc
    simp [ManagerState.handle_password_submit, TempMessage.with_password, hc]
  · intro v k schema style hi hk
    simp [ManagerState.handle_password_submit, TempMessage.with_password, hi, hk]

/-- C1 (witness): the amended theorem applied at a concrete state — a
pending `New` whose conversion succeeds finalizes into one write request
plus a refresh and clears the workflow. -/
theorem ManagerState.handle_password_submit_cases_witness :
    ({ ManagerState.init with
       temp_message := .New "v" "k" .password [("password", "x")] }).handle_password_submit "p" =
      some ({ ManagerState.init with internal_state := [], temp_message := .Empty },
            [.VaultMessage "v" (.Update "p" "k" (.password "x")), .Info]) :=
  (ManagerState.handle_password_submit_cases ManagerState.init "p").2.2.2.2.1
    "v" "k" .password [("password", "x")] (.password "x") rfl

/-- Concrete Orchestrator state used to refute C2: a valid password prompt
on top while the Pending Operation is a `New` whose raw field map lacks
the field required by the chosen schema, so conversion fails. -/
def stateC2 : ManagerState :=
  { info := ⟨[("v", ⟨[]⟩)]⟩,
    vaults := [("v", false)],
    internal_state := [.Password { password := "pw", confirm := none, needsConfirm := false }],
    temp_message := .New "v" "k" .password [],
    stored_clipboard := none,
    connected := true }

/-- C2 (counterexample): when conversion of the field map fails, the
password-submit handler hits the `unwrap` in `with_password` and panics
(`none`) — falsifying the claim that the failure is local, recoverable
and panic-free. (No outbound request is produced, but only because the
process dies first.) -/
theorem ManagerState.convert_failure_panics :
    stateC2.update .Submit = none := by
  decide

/-- C2 (amended): for a `Create`/`Write` Pending Operation whose field-map
conversion fails, `finalize` reaches no dispatch — `with_password` itself
panics on the `unwrap`ed conversion (embedded as `none`), and the panic
propagates through the password-submit handler before any request is
handed to the connection or any state is committed; the failure is a
crash, not the spec's local recoverable no-op. -/
theorem ManagerState.convert_failure_no_dispatch (s : ManagerState) (pw v k : String)
    (c : StoreChoice) (m : FieldMap) (hc : c.convert m = none) :
    (TempMessage.New v k c m).with_password pw = none
  ∧ (TempMessage.Update v k c m).with_password pw = none
  ∧ ({ s with temp_message := .New v k c m }).handle_password_submit pw = none
  ∧ ({ s with temp_message := .Update v k c m }).handle_password_submit pw = none := by
  refine ⟨?_, ?_, ?_, ?_⟩ <;>
    simp [ManagerState.handle_password_submit, TempMessage.with_password, hc]

/-- C2 (witness): the amended theorem applied at a concrete failing field
map (the `password` field is missing, so conversion fails). -/
theorem ManagerState.convert_failure_no_dispatch_witness :
    (TempMessage.New "v" "k" .password []).with_password "pw" = none
  ∧ (TempMessage.Update "v" "k" .password []).with_password "pw" = none
  ∧ ({ ManagerState.init with
       temp_message := .New "v" "k" .password [] }).handle_password_submit "pw" = none
  ∧ ({ ManagerState.init with
       temp_message := .Update "v" "k" .password [] }).handle_password_submit "pw" = none :=
  ManagerState.convert_failure_no_dispatch ManagerState.init "pw" "v" "k" .password [] rfl

/-- Concrete Orchestrator state used to refute C4: the new-entry form is
the active layer of a vault with zero entries in the Directory Cache, but
the Pending Operation is incomplete (the chosen key name is empty). -/
def stateC4 : ManagerState :=
  { info := ⟨[("v", ⟨[]⟩)]⟩,
    vaults := [("v", false)],
    internal_state := [.New (NewEntryState.for_vault "v")],
    temp_message := .New "v" "" .password [("password", "x")],
    stored_clipboard := none,
    connected := true }

/-- C4 (counterexample): submitting the new-entry form of a zero-entry
vault while the Pending Operation is incomplete changes nothing and
pushes no `PasswordPrompt` — falsifying, at this input, the claim that a
zero-entry vault always yields a confirmation-required prompt on form
submit. -/
theorem ManagerState.submit_new_incomplete_refused :
    stateC4.update .Submit = some (stateC4, []) := by
  decide

/-- C4 (amended): on a `NewEntryForm` submit the handler first requires
the target vault to be present in the Directory Cache and the pending
operation to be complete; given those, a zero-entry vault pushes a
`PasswordPrompt` with confirmation required, a vault not containing the
chosen key pushes a `PasswordPrompt` without confirmation, and a
duplicate key changes nothing (no prompt, no request, state unchanged);
when the vault is missing from the cache or the operation is incomplete,
nothing happens either. -/
theorem ManagerState.submit_new_cases (s : ManagerState) (ns : NewEntryState)
    (htop : stackTop s.internal_state = some (.New ns)) :
    (s.info.get ns.vault = none → s.update .Submit = some (s, []))
  ∧ (s.temp_message.complete = false → s.update .Submit = some (s, []))
  ∧ (∀ schema, s.info.get ns.vault = some schema → s.temp_message.complete = true →
      ((schema.is_empty = true →
          s.update .Submit =
            some ({ s with internal_state :=
                      s.internal_state ++ [.Password (PasswordState.new true)] }, []))
       ∧ (schema.is_empty = false → schema.contains_key ns.name = false →
          s.update .Submit =
            some ({ s with internal_state :=
                      s.internal_state ++ [.Password PasswordState.mkDefault] }, []))
       ∧ (schema.is_empty = false → schema.contains_key ns.name = true →
          s.update .Submit = some (s, [])))) := by
  refine ⟨?_, ?_, ?_⟩
  · intro hi
    simp [ManagerState.update, htop, hi]
  · intro hcomp
    rcases hi : s.info.get ns.vault with _ | schema <;>
      simp [ManagerState.update, htop, hi, hcomp]
  · intro schema hi hcomp
    refine ⟨?_, ?_, ?_⟩
    · intro he
      simp [ManagerState.update, htop, hi, hcomp, he]
    · intro he hk
      simp [ManagerState.update, htop, hi, hcomp, he, hk]
    · intro he hk
      simp [ManagerState.update, htop, hi, hcomp, he, hk]

/-- Concrete state for the C4 witness: active new-entry form with a
complete pending operation on a zero-entry vault. -/
def stateC4w : ManagerState :=
  { info := ⟨[("v", ⟨[]⟩)]⟩,
    vaults := [("v", false)],
    internal_state :=
      [.New { vault := "v", name := "login", choice := .password,
              value := [("password", "x")] }],
    temp_message := .New "v" "login" .password [("password", "x")],
    stored_clipboard := none,
    connected := true }

/-- C4 (witness): the amended theorem applied at a concrete state — the
first entry of an empty vault triggers the confirmation-required
password prompt. -/
theorem ManagerState.submit_new_cases_witness :
    stateC4w.update .Submit =
      some ({ stateC4w with internal_state :=
                stateC4w.internal_state ++ [.Password (PasswordState.new true)] }, []) :=
  ((ManagerState.submit_new_cases stateC4w
      { vault := "v", name := "login", choice := .password, value := [("password", "x")] }
      rfl).2.2 ⟨[]⟩ rfl rfl).1 rfl

/-- Concrete Orchestrator state used to refute C7: the Directory Cache
shows zero entries for vault `"temp"`, but a stale authentication-needing
Pending Operation (`Delete("a", "b")`) is still present when the user
triggers the vault deletion. -/
def stateC7 : ManagerState :=
  { info := ⟨[("temp", ⟨[]⟩)]⟩,
    vaults := [("temp", false)],
    internal_state := [],
    temp_message := .Delete "a" "b",
    stored_clipboard := none,
    connected := true }

/-- C7 (counterexample): deleting the zero-entry vault `"temp"` does
dispatch the delete-empty-vault request plus a refresh, but — because the
stale Pending Operation still reports `needs_password()` — it *also*
pushes a `PasswordPrompt`, falsifying the claim that no `PasswordPrompt`
is ever pushed on this trigger. -/
theorem ManagerState.delete_empty_vault_pushes_prompt :
    stateC7.update (.VaultMessage .Delete "temp") =
      some ({ stateC7 with internal_state := [.Password PasswordState.mkDefault] },
            [.DeleteEmptyVault "temp", .Info]) := by
  decide

/-- C7 (amended): when the user triggers deletion of a vault whose
Directory Cache entry shows zero entries, the delete-empty-vault request
followed by a directory refresh is dispatched immediately, and no
`PasswordPrompt` is pushed *provided* the current Pending Operation does
not require authentication (in particular from the idle state, where it
is `Empty`); the handler leaves the Pending Operation untouched in this
branch and consults its stale `needs_password()`, so a leftover
authentication-requiring operation would additionally push a prompt. -/
theorem ManagerState.delete_empty_vault_spec (s : ManagerState) (v : String)
    (schema : Schema) (hi : s.info.get v = some schema) (he : schema.is_empty = true)
    (hn : s.temp_message.needs_password = false) (hc : s.connected = true) :
    s.update (.VaultMessage .Delete v) = some (s, [.DeleteEmptyVault v, .Info]) := by
  simp [ManagerState.update, hi, he, hn, ManagerState.sendFilter, hc]

/-- Concrete idle state for the C7 witness. -/
def stateC7w : ManagerState :=
  { info := ⟨[("temp", ⟨[]⟩)]⟩,
    vaults := [("temp", false)],
    internal_state := [],
    temp_message := .Empty,
    stored_clipboard := none,
    connected := true }

/-- C7 (witness): the amended theorem applied at a concrete idle state —
immediate dispatch, no prompt. -/
theorem ManagerState.delete_empty_vault_spec_witness :
    stateC7w.update (.VaultMessage .Delete "temp") =
      some (stateC7w, [.DeleteEmptyVault "temp", .Info]) :=
  ManagerState.delete_empty_vault_spec stateC7w "temp" ⟨[]⟩ rfl rfl rfl rfl

/-- The clipboard world for the Clipboard Secret Timer (`manager.rs`
lines 596-619): the system clipboard contents, the Orchestrator's stored
capture (`stored_clipboard`), and the log of restore writes performed by
the clear handler, in order. -/
structure ClipWorld where
  stored : Option String
  clipboard : String
  restores : List String
deriving DecidableEq, Repr

/-- The composite effect of the `GUIMessage::CopyPassword` handler
(`manager.rs` lines 596-610) together with the delivery of its
`CopyClipboard` read-callback (line 611): capture the clipboard's prior
contents into `stored_clipboard`, write the secret to the clipboard, and
schedule one delayed `ClearClipboard`. (The scheduled event itself is
played explicitly in the scenario below.) -/
def ClipWorld.copyPassword (w : ClipWorld) (secret : String) : ClipWorld :=
  { stored := some w.clipboard, clipboard := secret, restores := w.restores }

/-- The `GUIMessage::ClearClipboard` handler (`manager.rs` lines 612-619):
write `stored_clipboard.unwrap_or("")` back to the clipboard (one restore
write, logged), and drop the stored record. -/
def ClipWorld.clearClipboard (w : ClipWorld) : ClipWorld :=
  let contents := w.stored.getD ""
  { stored := none, clipboard := contents, restores := w.restores ++ [contents] }

/-- The C9 scenario: from a clipboard holding `c0` and no stored record,
copy secret `a`, copy secret `b` before the first timer fires, then let
both timers fire. -/
def ClipWorld.doubleCopy (c0 a b : String) : ClipWorld :=
  ((((ClipWorld.mk none c0 []).copyPassword a).copyPassword b).clearClipboard).clearClipboard

/-- C9 (counterexample): after `copySecret("A")`, `copySecret("B")` and
both timer firings, **two** clipboard-restore writes have occurred, not
one: the first restores `"A"` (the second call's capture), the second
finds no stored record and writes the empty default, which is what the
clipboard finally holds — falsifying the claim that exactly one restore
write occurs and that it is what ends up restored. -/
theorem ClipWorld.two_restores_counterexample :
    (ClipWorld.doubleCopy "prior" "A" "B").restores = ["A", ""]
  ∧ (ClipWorld.doubleCopy "prior" "A" "B").restores.length ≠ 1
  ∧ (ClipWorld.doubleCopy "prior" "A" "B").clipboard = "" := by
  decide

/-- C9 (amended): for any prior clipboard contents and any two secrets
copied back-to-back before the first timer fires, both timers still fire a
restore write: the first write restores the second call's capture (the
first secret, which the first copy had left on the clipboard), and the
second write — its stored record having been consumed — writes the empty
default, which is the final clipboard content. The first call's capture is
never restored. -/
theorem ClipWorld.supersede_spec (c0 a b : String) :
    (ClipWorld.doubleCopy c0 a b).restores = [a, ""]
  ∧ (ClipWorld.doubleCopy c0 a b).clipboard = ""
  ∧ (ClipWorld.doubleCopy c0 a b).stored = none := by
  refine ⟨rfl, rfl, rfl⟩

/-- Helper for the reachability invariant: whatever `handle_password_submit`
returns, the resulting Pending Operation is `Empty` or a freshly seeded
`Update` (the `Get` arm). -/
theorem ManagerState.hps_temp (s : ManagerState) (pw : String) (s' : ManagerState)
    (msgs : List ManagerMessage) (h : s.handle_password_submit pw = some (s', msgs)) :
    s'.temp_message = .Empty ∨
      ∃ v k, s'.temp_message = .Update v k StoreChoice.default
        StoreChoice.default.convert_default.as_hash := by
  rcases hm : s.temp_message with _ | ⟨v, k⟩ | ⟨v, k⟩ | ⟨v, k, c, f⟩ | ⟨v, k, c, f⟩ | v | v
  · simp [ManagerState.handle_password_submit, hm] at h
    obtain ⟨h1, h2⟩ := h
    subst h1
    left; rfl
  · simp [ManagerState.handle_password_submit, hm, TempMessage.with_password] at h
    obtain ⟨h1, h2⟩ := h
    subst h1
    left; rfl
  · rcases hi : s.info.get v with _ | schema
    · simp [ManagerState.handle_password_submit, hm, TempMessage.with_password, hi] at h
    · rcases hk : schema.get k with _ | style
      · simp [ManagerState.handle_password_submit, hm, TempMessage.with_password, hi, hk] at h
      · simp [ManagerState.handle_password_submit, hm, TempMessage.with_password, hi, hk] at h
        obtain ⟨h1, h2⟩ := h
        subst h1
        right; exact ⟨v, k, rfl⟩
  · rcases hc : c.convert f with _ | st
    · simp [ManagerState.handle_password_submit, hm, TempMessage.with_password, hc] at h
    · simp [ManagerState.handle_password_submit, hm, TempMessage.with_password, hc] at h
      obtain ⟨h1, h2⟩ := h
      subst h1
      left; rfl
  · rcases hc : c.convert f with _ | st
    · simp [ManagerState.handle_password_submit, hm, TempMessage.with_password, hc] at h
    · simp [ManagerState.handle_password_submit, hm, TempMessage.with_password, hc] at h
      obtain ⟨h1, h2⟩ := h
      subst h1
      left; rfl
  · simp [ManagerState.handle_password_submit, hm, TempMessage.with_password] at h
    obtain ⟨h1, h2⟩ := h
    subst h1
    left; rfl
  · simp [ManagerState.handle_password_submit, hm, TempMessage.with_password] at h
    obtain ⟨h1, h2⟩ := h
    subst h1
    left; rfl

/-- Helper for the reachability invariant: a read response either leaves
the Pending Operation untouched or refreshes the fields of an existing
`Update`. -/
theorem ManagerState.update_entry_temp (s : ManagerState) (data : Reads) :
    (s.update_entry data).temp_message = s.temp_message ∨
      ∃ v k c f, s.temp_message = .Update v k c f ∧
        ∃ c' f', (s.update_entry data).temp_message = .Update v k c' f' := by
  rcases hm : s.temp_message with _ | ⟨v, k⟩ | ⟨v, k⟩ | ⟨v, k, c, f⟩ | ⟨v, k, c, f⟩ | v | v <;>
    simp [ManagerState.update_entry, hm]

/-- Helper for the reachability invariant: no event handler ever sets the
Pending Operation to `DeleteEmptyVault` — the only assignment of that
variant in the source (`manager.rs` line 393) is commented out, so the
`DeleteEmptyVault` arms of `handle_password_submit` and of the cancel
handler are dead code. -/
theorem ManagerState.update_no_dev (s s' : ManagerState) (m : GUIMessage)
    (msgs : List ManagerMessage) (h : s.update m = some (s', msgs))
    (hs : ∀ w, s.temp_message ≠ .DeleteEmptyVault w) :
    ∀ w, s'.temp_message ≠ .DeleteEmptyVault w := by
  intro w
  cases m with
  | Event e =>
      cases e with
      | Connected =>
          simp [ManagerState.update] at h
          obtain ⟨h1, h2⟩ := h
          subst h1
          exact hs w
      | Disconnected =>
          simp [ManagerState.update] at h
          obtain ⟨h1, h2⟩ := h
          subst h1
          exact hs w
      | ReceiveOutput o =>
          cases o with
          | Info info =>
              simp [ManagerState.update] at h
              obtain ⟨h1, h2⟩ := h
              subst h1
              exact hs w
          | Read value =>
              simp [ManagerState.update] at h
              obtain ⟨h1, h2⟩ := h
              subst h1
              rcases ManagerState.update_entry_temp s value with he | ⟨v, k, c, f, hm, c', f', he⟩
              · rw [he]; exact hs w
              · rw [he]; simp
          | Nothing =>
              simp [ManagerState.update] at h
              obtain ⟨h1, h2⟩ := h
              subst h1
              exact hs w
          | Other => simp [ManagerState.update] at h
      | ReceiveError =>
          simp [ManagerState.update] at h
          obtain ⟨h1, h2⟩ := h
          subst h1
          simp
  | VaultMessage message vault =>
      cases message with
      | Entry em key =>
          cases em <;>
          · simp [ManagerState.update, TempMessage.needs_password] at h
            obtain ⟨h1, h2⟩ := h
            subst h1
            simp
      | NewEntry =>
          simp [ManagerState.update] at h
          obtain ⟨h1, h2⟩ := h
          subst h1
          simp
      | Delete =>
          rcases hi : s.info.get vault with _ | schema
          · simp [ManagerState.update, hi] at h
          · rcases he : schema.is_empty with _ | _
            · simp [ManagerState.update, hi, he, TempMessage.needs_password] at h
              obtain ⟨h1, h2⟩ := h
              subst h1
              simp
            · rcases hn : s.temp_message.needs_password with _ | _ <;>
              · simp [ManagerState.update, hi, he, hn] at h
                obtain ⟨h1, h2⟩ := h
                subst h1
                exact hs w
      | Toggle name =>
          simp [ManagerState.update] at h
          obtain ⟨h1, h2⟩ := h
          subst h1
          exact hs w
  | PasswordChanged p =>
      simp [ManagerState.update] at h
      obtain ⟨h1, h2⟩ := h
      subst h1
      exact hs w
  | PasswordConfirmChanged p =>
      simp [ManagerState.update] at h
      obtain ⟨h1, h2⟩ := h
      subst h1
      exact hs w
  | PromptChanged p =>
      simp [ManagerState.update] at h
      obtain ⟨h1, h2⟩ := h
      subst h1
      exact hs w
  | ChangeName n =>
      rcases hm : s.temp_message with _ | ⟨v, k⟩ | ⟨v, k⟩ | ⟨v, k, c, f⟩ | ⟨v, k, c, f⟩ | v | v <;>
      · simp [ManagerState.update, hm] at h
        obtain ⟨h1, h2⟩ := h
        subst h1
        first
        | exact absurd hm (hs _)
        | simp [hm]
  | SelectStyle choice =>
      rcases hm : s.temp_message with _ | ⟨v, k⟩ | ⟨v, k⟩ | ⟨v, k, c, f⟩ | ⟨v, k, c, f⟩ | v | v <;>
      · simp [ManagerState.update, hm] at h
        obtain ⟨h1, h2⟩ := h
        subst h1
        first
        | exact absurd hm (hs _)
        | simp [hm]
  | UpdateField k v =>
      rcases hm : s.temp_message with _ | ⟨a, b⟩ | ⟨a, b⟩ | ⟨a, b, c, f⟩ | ⟨a, b, c, f⟩ | a | a <;>
      · simp [ManagerState.update, hm] at h
        obtain ⟨h1, h2⟩ := h
        subst h1
        first
        | exact absurd hm (hs _)
        | simp [hm]
  | GeneratePassword p =>
      rcases hm : s.temp_message with _ | ⟨a, b⟩ | ⟨a, b⟩ | ⟨a, b, c, f⟩ | ⟨a, b, c, f⟩ | a | a <;>
      · simp [ManagerState.update, hm] at h
        obtain ⟨h1, h2⟩ := h
        subst h1
        first
        | exact absurd hm (hs _)
        | simp [hm]
  | Submit =>
      rcases ht : stackTop s.internal_state with _ | l
      · simp [ManagerState.update, ht] at h
        obtain ⟨h1, h2⟩ := h
        subst h1
        exact hs w
      · cases l with
        | Password ps =>
            rcases hv : ps.valid with _ | _
            · simp [ManagerState.update, ht, hv] at h
              obtain ⟨h1, h2⟩ := h
              subst h1
              exact hs w
            · rcases hh : s.handle_password_submit ps.password with _ | pr
              · simp [ManagerState.update, ht, hv, hh] at h
              · simp [ManagerState.update, ht, hv, hh] at h
                obtain ⟨h1, h2⟩ := h
                subst h1
                rcases ManagerState.hps_temp s ps.password pr.1 pr.2 (by rw [hh]) with
                  he | ⟨a, b, he⟩ <;> simp [he]
        | New ns =>
            rcases hi : s.info.get ns.vault with _ | schema
            · simp [ManagerState.update, ht, hi] at h
              obtain ⟨h1, h2⟩ := h
              subst h1
              exact hs w
            · rcases hcm : s.temp_message.complete with _ | _
              · simp [ManagerState.update, ht, hi, hcm] at h
                obtain ⟨h1, h2⟩ := h
                subst h1
                exact hs w
              · rcases he : schema.is_empty with _ | _
                · rcases hk : schema.contains_key ns.name with _ | _ <;>
                  · simp [ManagerState.update, ht, hi, hcm, he, hk] at h
                    obtain ⟨h1, h2⟩ := h
                    subst h1
                    exact hs w
                · simp [ManagerState.update, ht, hi, hcm, he] at h
                  obtain ⟨h1, h2⟩ := h
                  subst h1
                  exact hs w
        | Entry es =>
            rcases hi : s.info.get es.vault with _ | schema
            · simp [ManagerState.update, ht, hi] at h
              obtain ⟨h1, h2⟩ := h
              subst h1
              exact hs w
            · rcases hb : schema.contains_key es.key && s.temp_message.complete with _ | _
              · simp [ManagerState.update, ht, hi, hb] at h
                obtain ⟨h1, h2⟩ := h
                subst h1
                exact hs w
              · rcases hp : s.get_password with _ | pw
                · simp [ManagerState.update, ht, hi, hb, hp] at h
                  obtain ⟨h1, h2⟩ := h
                  subst h1
                  exact hs w
                · rcases hw : s.temp_message.with_password pw with _ | msg
                  · simp [ManagerState.update, ht, hi, hb, hp, hw] at h
                  · simp [ManagerState.update, ht, hi, hb, hp, hw] at h
                    obtain ⟨h1, h2⟩ := h
                    subst h1
                    simp
        | Prompt ps =>
            rcases hb : !s.info.contains_key ps.vault && !ps.vault.isEmpty with _ | _ <;>
            · simp [ManagerState.update, ht, hb] at h
              obtain ⟨h1, h2⟩ := h
              subst h1
              exact hs w
  | Exit =>
      rcases ht : stackTop s.internal_state with _ | l
      · simp [ManagerState.update, ht] at h
        obtain ⟨h1, h2⟩ := h
        subst h1
        exact hs w
      · cases l with
        | Password ps =>
            rcases hm : s.temp_message with _ | ⟨v, k⟩ | ⟨v, k⟩ | ⟨v, k, c, f⟩ | ⟨v, k, c, f⟩ | v | v <;>
            · simp [ManagerState.update, ht, hm] at h
              obtain ⟨h1, h2⟩ := h
              subst h1
              simp [hm]
        | Entry es =>
            simp [ManagerState.update, ht] at h
            obtain ⟨h1, h2⟩ := h
            subst h1
            simp
        | New ns =>
            simp [ManagerState.update, ht] at h
            obtain ⟨h1, h2⟩ := h
            subst h1
            simp
        | Prompt ps =>
            simp [ManagerState.update, ht] at h
            obtain ⟨h1, h2⟩ := h
            subst h1
            exact hs w
  | ShowPassword =>
      simp [ManagerState.update] at h
      obtain ⟨h1, h2⟩ := h
      subst h1
      exact hs w
  | HidePassword =>
      simp [ManagerState.update] at h
      obtain ⟨h1, h2⟩ := h
      subst h1
      exact hs w
  | CopyPassword =>
      simp [ManagerState.update] at h
      obtain ⟨h1, h2⟩ := h
      subst h1
      exact hs w
  | CopyClipboard data =>
      simp [ManagerState.update] at h
      obtain ⟨h1, h2⟩ := h
      subst h1
      exact hs w
  | ClearClipboard =>
      simp [ManagerState.update] at h
      obtain ⟨h1, h2⟩ := h
      subst h1
      exact hs w
  | NewVault =>
      simp [ManagerState.update] at h
      obtain ⟨h1, h2⟩ := h
      subst h1
      exact hs w

/-- States of the Orchestrator reachable from the startup state by any
sequence of (non-panicking) events. -/
inductive ManagerState.Reachable : ManagerState → Prop where
  | init : ManagerState.Reachable ManagerState.init
  | step {s s' : ManagerState} {m : GUIMessage} {msgs : List ManagerMessage} :
      ManagerState.Reachable s → s.update m = some (s', msgs) →
      ManagerState.Reachable s'

/-- Reachability invariant: in every reachable state the Pending Operation
is never `DeleteEmptyVault` (its assignment is commented out in the
source). -/
theorem ManagerState.reachable_no_dev (s : ManagerState) (h : s.Reachable) :
    ∀ w, s.temp_message ≠ .DeleteEmptyVault w := by
  induction h with
  | init => intro w hw; exact absurd hw (by simp [ManagerState.init])
  | step hr hu ih => exact ManagerState.update_no_dev _ _ _ _ hu ih

/-- C8: cancel behaves per the top of the Workflow Stack in every
reachable state. Canceling a `PasswordPrompt` pops exactly that one layer
and resets the Pending Operation to `Empty` for `Get` (Read), `Delete`
and `DeleteVault` intents, leaves it unchanged for `New` (Create),
`Update` (Write) and `Empty` — and the reset happens *only* for those
three intents (the source's extra `DeleteEmptyVault` reset arm is dead
code by the reachability invariant). Canceling while a `NewEntryForm` or
`ExistingEntryForm` is the active layer empties the entire stack and
resets the Pending Operation. Canceling a `VaultNamePrompt` pops just
that layer. -/
theorem ManagerState.exit_cases (s : ManagerState) (h : s.Reachable) :
    (∀ ps, stackTop s.internal_state = some (.Password ps) →
       (((∃ v k, s.temp_message = .Get v k) ∨ (∃ v k, s.temp_message = .Delete v k) ∨
           (∃ v, s.temp_message = .DeleteVault v)) →
          s.update .Exit =
            some ({ s with internal_state := stackPop s.internal_state, temp_message := .Empty }, []))
       ∧ (((∃ v k c f, s.temp_message = .New v k c f) ∨
             (∃ v k c f, s.temp_message = .Update v k c f) ∨ s.temp_message = .Empty) →
          s.update .Exit =
            some ({ s with internal_state := stackPop s.internal_state }, []))
       ∧ (∀ s' msgs, s.update .Exit = some (s', msgs) → s'.temp_message = .Empty →
            (s.temp_message = .Empty ∨ (∃ v k, s.temp_message = .Get v k) ∨
             (∃ v k, s.temp_message = .Delete v k) ∨
             (∃ v, s.temp_message = .DeleteVault v))))
  ∧ (∀ es, stackTop s.internal_state = some (.Entry es) →
       s.update .Exit = some ({ s with internal_state := [], temp_message := .Empty }, []))
  ∧ (∀ ns, stackTop s.internal_state = some (.New ns) →
       s.update .Exit = some ({ s with internal_state := [], temp_message := .Empty }, []))
  ∧ (∀ ps, stackTop s.internal_state = some (.Prompt ps) →
       s.update .Exit = some ({ s with internal_state := stackPop s.internal_state }, [])) := by
  have hnd := ManagerState.reachable_no_dev s h
  refine ⟨?_, ?_, ?_, ?_⟩
  · intro ps ht
    refine ⟨?_, ?_, ?_⟩
    · rintro (⟨v, k, hm⟩ | ⟨v, k, hm⟩ | ⟨v, hm⟩) <;>
        simp [ManagerState.update, ht, hm]
    · rintro (⟨v, k, c, f, hm⟩ | ⟨v, k, c, f, hm⟩ | hm) <;>
        simp [ManagerState.update, ht, hm]
    · intro s' msgs hu hemp
      rcases hm : s.temp_message with _ | ⟨v, k⟩ | ⟨v, k⟩ | ⟨v, k, c, f⟩ | ⟨v, k, c, f⟩ | v | v
      · exact Or.inl rfl
      · exact Or.inr (Or.inr (Or.inl ⟨v, k, rfl⟩))
      · exact Or.inr (Or.inl ⟨v, k, rfl⟩)
      · exfalso
        simp [ManagerState.update, ht, hm] at hu
        obtain ⟨h1, h2⟩ := hu
        subst h1
        simp [hm] at hemp
      · exfalso
        simp [ManagerState.update, ht, hm] at hu
        obtain ⟨h1, h2⟩ := hu
        subst h1
        simp [hm] at hemp
      · exact Or.inr (Or.inr (Or.inr ⟨v, rfl⟩))
      · exact absurd hm (hnd v)
  · intro es ht
    simp [ManagerState.update, ht]
  · intro ns ht
    simp [ManagerState.update, ht]
  · intro ps ht
    simp [ManagerState.update, ht]

/-- Concrete reachable state for the C8 witness: from startup, the user
asks to delete entry `"k"` of vault `"v"`, which sets the Pending
Operation and pushes a password prompt. -/
def stateC8 : ManagerState :=
  { ManagerState.init with
    temp_message := .Delete "v" "k",
    internal_state := [.Password PasswordState.mkDefault] }

/-- C8 (witness): canceling the password prompt of a pending entry delete
pops the prompt and resets the Pending Operation. -/
theorem ManagerState.exit_cases_witness :
    stateC8.update .Exit =
      some ({ stateC8 with internal_state := [], temp_message := .Empty }, []) :=
  have hstep : ManagerState.init.update (.VaultMessage (.Entry .Delete "k") "v") =
      some (stateC8, []) := by decide
  ((ManagerState.exit_cases stateC8
      (.step .init hstep)).1 PasswordState.mkDefault rfl).1
    (Or.inr (Or.inl ⟨"v", "k", rfl⟩))
